import Mathlib

/-
Verification development for the JobHunter backend (src/backend/server.py).

Shallow embedding conventions:
- Python strings are Lean `String`; Python `str.lower()` is `lowerS` (ASCII case
  mapping via `Char.toLower`); the Python substring test `needle in hay` is
  `containsSub hay needle`.
- Python floats are embedded as `ℚ`; every arithmetic operation performed by the
  scoring function (division by a small integer, multiplication by 70, addition
  of multiples of 5, `min` with 100) is exact, so `ℚ` is a faithful model on the
  values the claims mention.
- External collaborators (the generative text service, the JSON parser of the
  standard library, the persistence driver) are modelled as explicit parameters:
  an oracle value describes the outcome of each external call, and the embedded
  function branches on it exactly where the Python code branches on an exception.
- The MongoDB collections are Lean lists in insertion order; `find_one` with an
  id filter is `List.find?`, `find_one` sorted by `created_at` descending is
  `findLatestCV`, `update_one` updates the first matching document, and the
  filter-sort-limit query of the auto-apply endpoint is filter, stable merge
  sort by descending score, then `List.take` (the limit contract of the store
  as described by the specification).
-/

namespace JobHunter

/-! ## String helpers -/

/-- ASCII lower-casing of a string, the embedding of Python `str.lower()`. -/
def lowerS (s : String) : String := ⟨s.data.map Char.toLower⟩

/-- Substring test on character lists: `isSubstr n h` is true when `n` occurs
contiguously inside `h`. -/
def isSubstr : List Char → List Char → Bool
  | n, [] => n.isEmpty
  | n, h :: t => n.isPrefixOf (h :: t) || isSubstr n t

/-- Embedding of the Python substring test `needle in hay`. -/
def containsSub (hay needle : String) : Bool := isSubstr needle.data hay.data

/-! ## Data model (the pydantic models of server.py) -/

/-- `CVData` of server.py; `created_at` is an abstract timestamp. -/
structure CVData where
  id : String
  filename : String
  extracted_text : String
  skills : List String
  experience : List String
  education : List String
  summary : String
  created_at : Nat
deriving DecidableEq

/-- A raw job dictionary as produced by `search_jobs_linkedin_scrape` and
consumed by `calculate_job_match_score`. -/
structure RawJob where
  title : String
  company : String
  location : String
  description : String
  requirements : String
  url : String
  posted_date : String
deriving DecidableEq

/-- `JobListing` of server.py. -/
structure JobListing where
  id : String
  title : String
  company : String
  location : String
  description : String
  requirements : String
  url : String
  posted_date : String
  match_score : ℚ
  applied : Bool := false
  created_at : Nat
deriving DecidableEq

/-- `JobApplication` of server.py. -/
structure JobApplication where
  id : String
  job_id : String
  cv_id : String
  cover_letter : String
  application_date : Nat
  status : String := "applied"
  response_received : Bool := false
deriving DecidableEq

/-! ## Fallback skill extraction (`extract_skills_basic`) -/

/-- The fixed skill vocabulary of `extract_skills_basic`. -/
def skills_keywords : List String :=
  ["Python", "JavaScript", "React", "Node.js", "FastAPI", "MongoDB", "SQL",
   "Docker", "Kubernetes", "AWS", "Git", "Machine Learning", "AI", "Data Science",
   "Project Management", "Leadership", "Communication", "Problem Solving"]

/-- Embedding of `extract_skills_basic`: keep each vocabulary entry whose
lower-cased form occurs in the lower-cased text. -/
def extract_skills_basic (text : String) : List String :=
  let text_lower := lowerS text
  skills_keywords.filter (fun skill => containsSub text_lower (lowerS skill))

/-! ## Job match scoring (`calculate_job_match_score`) -/

/-- The fixed seniority keyword list of `calculate_job_match_score`. -/
def experience_keywords : List String := ["senior", "lead", "manager", "architect"]

/-- Embedding of `calculate_job_match_score`. -/
def calculate_job_match_score (cv_data : CVData) (job : RawJob) : ℚ :=
  let cv_skills := cv_data.skills.map lowerS
  let job_text := lowerS (job.description ++ " " ++ job.requirements)
  let skill_matches := (cv_skills.filter (fun skill => containsSub job_text skill)).length
  if cv_skills.isEmpty then 50
  else
    let base_score : ℚ := ((skill_matches : ℚ) / (cv_skills.length : ℚ)) * 70
    let cv_text := lowerS cv_data.extracted_text
    let experience_bonus : ℚ :=
      5 * (((experience_keywords.filter
        (fun keyword => containsSub cv_text keyword && containsSub job_text keyword)).length : ℚ))
    min 100 (base_score + experience_bonus)

/-! ## A small backtracking regex engine

`extract_experience_basic` and `extract_education_basic` use `re.findall` with
`re.IGNORECASE`. The patterns only use: single-character classes, literals,
alternation, greedy `+` over a character class, lazy `.*?`, and two capture
groups. The engine below implements exactly Python backtracking semantics for
this fragment: alternation prefers the left branch, greedy repetition tries
the longest run first, lazy repetition tries the shortest extension first, a
search returns the match at the leftmost feasible start position, and
`findall` resumes scanning at the end of the previous (non-empty) match. -/

/-- The character classes appearing in the patterns. With `re.IGNORECASE` the
classes `[A-Z]` and `[a-z]` both match any ASCII letter. `.` matches any
character except a newline. -/
inductive CClass where
  | digit
  | spaceOrHyphen
  | alpha
  | dot
deriving DecidableEq

/-- Semantics of a character class. -/
def CClass.test : CClass → Char → Bool
  | .digit, c => c.isDigit
  | .spaceOrHyphen, c => c.isWhitespace || c = '-'
  | .alpha, c => c.isAlpha
  | .dot, c => c ≠ '\n'

/-- Regular expressions of the fragment used by server.py. -/
inductive RE where
  | cls (c : CClass)
  | lit (s : String)
  | seq (a b : RE)
  | alt (a b : RE)
  | plusG (c : CClass)
  | starL (c : CClass)
  | grp (i : Nat) (r : RE)

/-- Case-insensitive literal consumption: drop `lit` from the front of the
input, comparing characters through `Char.toLower`. -/
def dropLitCI : List Char → List Char → Option (List Char)
  | [], s => some s
  | _ :: _, [] => none
  | c :: cs, d :: ds => if c.toLower = d.toLower then dropLitCI cs ds else none

/-- The remainders left after consuming zero or more characters of class `c`
from the front, shortest consumption first (the preference order of a lazy
star). -/
def lazyRests (c : CClass) : List Char → List (List Char)
  | [] => [[]]
  | ch :: t => (ch :: t) :: (if c.test ch then lazyRests c t else [])

/-- The remainders left after consuming one or more characters of class `c`
from the front, longest consumption first (the preference order of a greedy
plus). -/
def greedyRests (c : CClass) (s : List Char) : List (List Char) :=
  ((lazyRests c s).drop 1).reverse

/-- First success of `f` over a list of candidate remainders, in order. -/
def firstSome {σ : Type} : List (List Char) → (List Char → Option σ) → Option σ
  | [], _ => none
  | x :: xs, f => match f x with
    | some r => some r
    | none => firstSome xs f

/-- Captured texts of groups 1 and 2 (both patterns use exactly these). -/
structure Caps where
  g1 : List Char := []
  g2 : List Char := []
deriving DecidableEq

/-- Record the text captured by group `i`. -/
def setGroup (i : Nat) (v : List Char) (caps : Caps) : Caps :=
  if i = 1 then { caps with g1 := v }
  else if i = 2 then { caps with g2 := v }
  else caps

/-- Backtracking matcher in continuation-passing style. `mrun r s caps k`
tries every way of matching `r` against a prefix of `s`, in Python preference
order, and calls `k` on the remainder and updated captures; the first success
of `k` is returned. -/
def mrun {σ : Type} : RE → List Char → Caps → (List Char → Caps → Option σ) → Option σ
  | .cls c, s, caps, k =>
    match s with
    | [] => none
    | ch :: t => if c.test ch then k t caps else none
  | .lit str, s, caps, k =>
    match dropLitCI str.data s with
    | some t => k t caps
    | none => none
  | .seq a b, s, caps, k => mrun a s caps (fun s1 caps1 => mrun b s1 caps1 k)
  | .alt a b, s, caps, k =>
    match mrun a s caps k with
    | some r => some r
    | none => mrun b s caps k
  | .plusG c, s, caps, k => firstSome (greedyRests c s) (fun s1 => k s1 caps)
  | .starL c, s, caps, k => firstSome (lazyRests c s) (fun s1 => k s1 caps)
  | .grp i r, s, caps, k =>
    mrun r s caps (fun s1 caps1 => k s1 (setGroup i (s.take (s.length - s1.length)) caps1))

/-- Leftmost search: try to match at each successive start position and
return the captures together with the remainder after the match. -/
def msearch (r : RE) : List Char → Option (Caps × List Char)
  | [] => mrun r [] {} (fun rest caps => some (caps, rest))
  | ch :: t =>
    match mrun r (ch :: t) {} (fun rest caps => some (caps, rest)) with
    | some res => some res
    | none => msearch r t

/-- `re.findall`, fuelled by the input length: collect the capture pairs of
successive non-overlapping leftmost matches. A zero-width match at the scan
front advances the scan by one character, as Python does. -/
def findallAux (r : RE) : Nat → List Char → List (List Char × List Char)
  | 0, _ => []
  | fuel + 1, s =>
    match msearch r s with
    | none => []
    | some (caps, rest) =>
      (caps.g1, caps.g2) ::
        findallAux r fuel (if rest.length = s.length then rest.drop 1 else rest)

/-- Embedding of `re.findall(pattern, text, re.IGNORECASE)` restricted to the
two capture groups of the patterns of server.py. -/
def findall (r : RE) (s : List Char) : List (List Char × List Char) :=
  findallAux r (s.length + 1) s

/-- Exact repetition of a character class, for `\d{4}` and `\d{2}`. -/
def rep2 (c : CClass) : RE := .seq (.cls c) (.cls c)

/-- Four-fold repetition of a character class. -/
def rep4 (c : CClass) : RE := .seq (rep2 c) (rep2 c)

/-- The sub-pattern `\d{4}[\s\-]+\d{4}|present`. -/
def yearRange : RE :=
  .alt (.seq (rep4 .digit) (.seq (.plusG .spaceOrHyphen) (rep4 .digit))) (.lit "present")

/-- The sub-pattern `(?:engineer|developer|manager|analyst|specialist|consultant)`. -/
def roleWord : RE :=
  .alt (.lit "engineer") (.alt (.lit "developer") (.alt (.lit "manager")
    (.alt (.lit "analyst") (.alt (.lit "specialist") (.lit "consultant")))))

/-- The sub-pattern `[A-Z][a-z]+.*?(?:engineer|...)` (case-insensitive). -/
def rolePhrase : RE := .seq (.cls .alpha) (.seq (.plusG .alpha) (.seq (.starL .dot) roleWord))

/-- First experience pattern of `extract_experience_basic`: year range, then
lazily anything, then a role phrase; groups 1 and 2 as in the source. -/
def experience_pattern_one : RE :=
  .seq (.grp 1 yearRange) (.seq (.starL .dot) (.grp 2 rolePhrase))

/-- Second experience pattern of `extract_experience_basic`: role phrase, then
lazily anything, then a year range. -/
def experience_pattern_two : RE :=
  .seq (.grp 1 rolePhrase) (.seq (.starL .dot) (.grp 2 yearRange))

/-- Python `" ".join(match)` on a two-group findall tuple. -/
def joinGroups (g : List Char × List Char) : String := ⟨g.1⟩ ++ " " ++ ⟨g.2⟩

/-- Embedding of `extract_experience_basic`: for each of the two patterns take
at most the first five findall matches, join the groups with a space, and if
the combined list is empty return the fixed placeholder entry. -/
def extract_experience_basic (text : String) : List String :=
  let experiences :=
    ((findall experience_pattern_one text.data).take 5).map joinGroups ++
    ((findall experience_pattern_two text.data).take 5).map joinGroups
  if experiences.isEmpty then ["Software Developer 2020-2023"] else experiences

/-- The sub-pattern `Bachelor|Master|PhD|B\.S\.|M\.S\.|B\.A\.|M\.A\.`. -/
def degreeWord : RE :=
  .alt (.lit "Bachelor") (.alt (.lit "Master") (.alt (.lit "PhD")
    (.alt (.lit "B.S.") (.alt (.lit "M.S.") (.alt (.lit "B.A.") (.lit "M.A."))))))

/-- The sub-pattern `University|College|Institute`. -/
def institutionWord : RE := .alt (.lit "University") (.alt (.lit "College") (.lit "Institute"))

/-- The sub-pattern `\d{4}|\d{2}`. -/
def yearDigits : RE := .alt (rep4 .digit) (rep2 .digit)

/-- First education pattern of `extract_education_basic`. -/
def education_pattern_one : RE :=
  .seq (.grp 1 degreeWord) (.seq (.starL .dot) (.grp 2 yearDigits))

/-- Second education pattern of `extract_education_basic`. -/
def education_pattern_two : RE :=
  .seq (.grp 1 institutionWord) (.seq (.starL .dot) (.grp 2 yearDigits))

/-- Embedding of `extract_education_basic`: at most the first three findall
matches of each pattern, joined with a space; an empty result is permitted. -/
def extract_education_basic (text : String) : List String :=
  ((findall education_pattern_one text.data).take 3).map joinGroups ++
  ((findall education_pattern_two text.data).take 3).map joinGroups

/-! ## Profile analysis (`analyze_cv_with_ai`) -/

/-- The structured analysis dictionary requested from the generative service
and produced by the fallback extractor. -/
structure AnalysisData where
  skills : List String
  experience : List String
  education : List String
  summary : String
deriving DecidableEq

/-- The deterministic fallback branch of `analyze_cv_with_ai`. -/
def fallback_analysis (text : String) : AnalysisData :=
  { skills := extract_skills_basic text,
    experience := extract_experience_basic text,
    education := extract_education_basic text,
    summary := if 200 < text.length then text.take 200 ++ "..." else text }

/-- Outcome of the generative-service call: either the call raised
(service error, timeout) or it returned a raw response text. -/
inductive LLMOutcome where
  | failure
  | response (text : String)

/-- The response clean-up of `analyze_cv_with_ai`: strip whitespace, a leading
code-fence marker and a trailing code-fence marker. -/
def strip_code_fences (response : String) : String :=
  let json_text := response.trim
  let json_text := if json_text.startsWith "```json" then json_text.drop 7 else json_text
  if json_text.endsWith "```" then json_text.dropRight 3 else json_text

/-- Embedding of `analyze_cv_with_ai`. The generative call and the JSON parser
are external: `llm` is the outcome of the call and `parseJson` the parser
(`none` models a `json.loads` exception). Any failure of either falls through
to the deterministic fallback. -/
def analyze_cv_with_ai (llm : LLMOutcome) (parseJson : String → Option AnalysisData)
    (text : String) : AnalysisData :=
  match llm with
  | .failure => fallback_analysis text
  | .response r =>
    match parseJson (strip_code_fences r) with
    | some d => d
    | none => fallback_analysis text

/-! ## Cover letter synthesis (`generate_cover_letter`) -/

/-- The fixed fallback template of `generate_cover_letter`. -/
def fallback_cover_letter (cv_data : CVData) (job : JobListing) : String :=
  "Dear Hiring Manager,\n\nI am writing to express my strong interest in the " ++
  job.title ++ " position at " ++ job.company ++ ". With my background in " ++
  String.intercalate ", " (cv_data.skills.take 3) ++
  ", I am excited about the opportunity to contribute to your team.\n\nMy experience includes " ++
  (match cv_data.experience with
   | e :: _ => e
   | [] => "relevant professional experience") ++
  ", which aligns well with your requirements. I am particularly drawn to this role because of the opportunity to work with cutting-edge technologies and contribute to meaningful projects.\n\nI would welcome the opportunity to discuss how my skills and enthusiasm can benefit " ++
  job.company ++ ". Thank you for considering my application.\n\nBest regards"

/-- Embedding of `generate_cover_letter`: return the generative-service
response when the call succeeds, the fallback template when it raises. -/
def generate_cover_letter (llm : Option String) (cv_data : CVData) (job : JobListing) : String :=
  match llm with
  | some r => r
  | none => fallback_cover_letter cv_data job

/-! ## Persistence state and the single-job apply operation -/

/-- The three MongoDB collections, as lists in insertion order. -/
structure DB where
  cvs : List CVData
  jobs : List JobListing
  applications : List JobApplication
deriving DecidableEq

/-- `db.cvs.find_one(sort=[("created_at", -1)])`: a document with the largest
`created_at` (the earliest inserted one on ties), `none` on an empty
collection. -/
def findLatestCV (cvs : List CVData) : Option CVData :=
  cvs.foldl
    (fun acc c =>
      match acc with
      | none => some c
      | some b => if b.created_at < c.created_at then some c else some b)
    none

/-- `db.jobs.update_one({"id": job_id}, {"$set": {"applied": True}})`: set the
`applied` flag of the first matching document. -/
def setAppliedFirst : List JobListing → String → List JobListing
  | [], _ => []
  | j :: rest, job_id =>
    if j.id == job_id then { j with applied := true } :: rest
    else j :: setAppliedFirst rest job_id

/-- An exception raised inside the `try` block of `apply_to_job`: either the
explicit `HTTPException` of the code or an exception of an external
collaborator carrying its message. -/
inductive PyExc where
  | httpExc (status : Nat) (detail : String)
  | externalExc (msg : String)
deriving DecidableEq

/-- Python `str(e)`: an `HTTPException` prints as `"{status}: {detail}"`. -/
def PyExc.message : PyExc → String
  | .httpExc status detail => toString status ++ ": " ++ detail
  | .externalExc m => m

/-- Environment of external outcomes for one batch or one apply call:
the generative-service outcome of the cover-letter call for a given job id,
whether (and with which message) the application insert or the
applied-flag update raises a persistence error for a given job id, and the
id generator for new application records. -/
structure ApplyEnv where
  llmCover : String → Option String
  insertFails : String → Option String
  updateFails : String → Option String
  freshId : Nat → String

/-- The result surfaced by the `apply_to_job` endpoint. -/
inductive ApplyOutcome where
  | ok (application : JobApplication)
  | httpError (status : Nat) (detail : String)
deriving DecidableEq

/-- The `try` body of `apply_to_job`: look up the posting by id and the most
recent CV, raise a 404 `HTTPException` if either is missing, generate the
cover letter, persist the application record, then set the `applied` flag of
the posting. The returned state reflects exactly the writes performed before
any raise. -/
def apply_to_job_inner (env : ApplyEnv) (db : DB) (job_id app_id : String) (now : Nat) :
    Except PyExc JobApplication × DB :=
  match db.jobs.find? (fun j => j.id == job_id), findLatestCV db.cvs with
  | some job_doc, some cv_doc =>
    let cover_letter := generate_cover_letter (env.llmCover job_id) cv_doc job_doc
    let application : JobApplication :=
      { id := app_id, job_id := job_id, cv_id := cv_doc.id, cover_letter := cover_letter,
        application_date := now }
    match env.insertFails job_id with
    | some msg => (.error (.externalExc msg), db)
    | none =>
      let db1 : DB := { db with applications := db.applications ++ [application] }
      match env.updateFails job_id with
      | some msg => (.error (.externalExc msg), db1)
      | none =>
        let db2 : DB := { db1 with jobs := setAppliedFirst db1.jobs job_id }
        (.ok application, db2)
  | _, _ => (.error (.httpExc 404 "Job or CV not found"), db)

/-- Embedding of the `apply_to_job` endpoint: the blanket
`except Exception` handler turns every exception raised in the body --
including the 404 `HTTPException` raised by the body itself -- into an
`HTTPException` with status 500 and a detail that embeds `str(e)`. -/
def apply_to_job (env : ApplyEnv) (db : DB) (job_id app_id : String) (now : Nat) :
    ApplyOutcome × DB :=
  match apply_to_job_inner env db job_id app_id now with
  | (.ok app, db1) => (.ok app, db1)
  | (.error e, db1) => (.httpError 500 ("Error applying to job: " ++ e.message), db1)

/-! ## The auto-apply batch (`auto_apply_jobs`) -/

/-- One entry of the `applications` list of the batch response. -/
structure AppSummary where
  job_id : String
  job_title : String
  company : String
  match_score : ℚ
  application_id : String
deriving DecidableEq

/-- The batch response: the message and the summaries of the successful
applications. On the empty selection the code returns a message-only body;
it is modelled with an empty `applications` list. -/
structure BatchResult where
  message : String
  applications : List AppSummary
deriving DecidableEq

/-- The descending-score comparator of the selection query. -/
def scoreDesc (a b : JobListing) : Bool := decide (b.match_score ≤ a.match_score)

/-- The selection query of `auto_apply_jobs`: filter on `applied = False` and
`match_score >= min_match_score`, stable sort by `match_score` descending,
limit to `max_applications` documents. -/
def selectAutoApplyJobs (jobs : List JobListing) (min_match_score : ℚ)
    (max_applications : Nat) : List JobListing :=
  ((jobs.filter
      (fun j => !j.applied && decide (min_match_score ≤ j.match_score))).mergeSort
    scoreDesc).take max_applications

/-- The per-job loop of `auto_apply_jobs`: invoke `apply_to_job` once per
selected posting; on success append a summary, on any exception skip and
continue. The third component is an instrumentation log recording, for every
invocation of `apply_to_job` in order, the posting id and whether the
invocation succeeded; the first two components are the translation of the
code. -/
def auto_apply_loop (env : ApplyEnv) (now : Nat) :
    List JobListing → DB → Nat → List AppSummary × DB × List (String × Bool)
  | [], db, _ => ([], db, [])
  | job :: rest, db, k =>
    match apply_to_job env db job.id (env.freshId k) now with
    | (.ok app, db1) =>
      let r := auto_apply_loop env now rest db1 (k + 1)
      ({ job_id := job.id, job_title := job.title, company := job.company,
         match_score := job.match_score, application_id := app.id } :: r.1,
       r.2.1, (job.id, true) :: r.2.2)
    | (.httpError _ _, db1) =>
      let r := auto_apply_loop env now rest db1 (k + 1)
      (r.1, r.2.1, (job.id, false) :: r.2.2)

/-- Embedding of the `auto_apply_jobs` endpoint, returning the response body,
the final state and the instrumentation log of apply invocations. -/
def auto_apply_jobs (env : ApplyEnv) (db : DB) (min_match_score : ℚ)
    (max_applications : Nat) (now : Nat) : BatchResult × DB × List (String × Bool) :=
  let jobs := selectAutoApplyJobs db.jobs min_match_score max_applications
  if jobs.isEmpty then
    ({ message := "No suitable jobs found for auto-application", applications := [] }, db, [])
  else
    let r := auto_apply_loop env now jobs db 0
    ({ message := "Auto-applied to " ++ toString r.1.length ++ " jobs",
       applications := r.1 }, r.2.1, r.2.2)

/-! ## Concrete fixtures used by witnesses and counterexamples -/

/-- A concrete profile with skills Python and React whose source text mentions
the seniority keyword senior. -/
def exampleCV : CVData :=
  { id := "cv-1", filename := "resume.pdf",
    extracted_text := "Senior engineer with Python and React",
    skills := ["Python", "React"], experience := ["Engineer 2018 - 2022"],
    education := [], summary := "profile", created_at := 1 }

/-- A concrete posting whose text contains Python, React and senior. -/
def exampleJob : RawJob :=
  { title := "Senior Python Developer", company := "Tech Innovators Inc",
    location := "Remote", description := "Looking for a senior Python developer",
    requirements := "Experience with React", url := "https://example.com/1",
    posted_date := "2 days ago" }

/-- A concrete profile with an empty skills list. -/
def noSkillsCV : CVData :=
  { id := "cv-2", filename := "empty.pdf", extracted_text := "plain text",
    skills := [], experience := [], education := [], summary := "s", created_at := 2 }

/-! ## Claim theorems -/

/-- C1: for every profile with a non-empty skills list and every posting, the
score equals `min(100, (m / n) * 70 + 5 * b)`, where `m` is the number of
profile skills occurring case-insensitively as substrings of the concatenation
of the description and requirements of the posting, `n` is the number of
profile skills, and `b` is the number of seniority keywords occurring
case-insensitively in both the profile source text and the posting text. -/
theorem C1_score_formula (cv : CVData) (job : RawJob) (h : cv.skills ≠ []) :
    calculate_job_match_score cv job =
      min 100
        ((((cv.skills.map lowerS).filter
            (fun skill =>
              containsSub (lowerS (job.description ++ " " ++ job.requirements)) skill)).length : ℚ)
          / (cv.skills.length : ℚ) * 70
         + 5 * ((experience_keywords.filter
            (fun keyword => containsSub (lowerS cv.extracted_text) keyword &&
              containsSub (lowerS (job.description ++ " " ++ job.requirements)) keyword)).length
              : ℚ)) := by
  have hne : (cv.skills.map lowerS).isEmpty = false := by
    simp [List.isEmpty_iff, h]
  simp [calculate_job_match_score, hne, List.length_map]

/-- C1 witness: on the concrete profile and posting of the specification
example the score evaluates to 75. -/
theorem C1_score_formula_witness : calculate_job_match_score exampleCV exampleJob = 75 := by
  have h := C1_score_formula exampleCV exampleJob (by decide)
  rw [h]
  have hm : ((exampleCV.skills.map lowerS).filter
      (fun skill =>
        containsSub (lowerS (exampleJob.description ++ " " ++ exampleJob.requirements))
          skill)).length = 2 := by decide
  have hb : (experience_keywords.filter
      (fun keyword => containsSub (lowerS exampleCV.extracted_text) keyword &&
        containsSub (lowerS (exampleJob.description ++ " " ++ exampleJob.requirements))
          keyword)).length = 1 := by decide
  have hn : exampleCV.skills.length = 2 := rfl
  rw [hm, hb, hn]
  norm_num

/-- C7: for every profile whose skills list is empty, the score is the fixed
default 50, independent of the posting. -/
theorem C7_empty_skills_default (cv : CVData) (job : RawJob) (h : cv.skills = []) :
    calculate_job_match_score cv job = 50 := by
  simp [calculate_job_match_score, h]

/-- C7 witness: the empty-skills default evaluated on concrete inputs. -/
theorem C7_empty_skills_default_witness :
    calculate_job_match_score noSkillsCV exampleJob = 50 :=
  C7_empty_skills_default noSkillsCV exampleJob rfl

/-- C8: for every profile and posting the score lies in the closed interval
from 0 to 100. -/
theorem C8_score_bounds (cv : CVData) (job : RawJob) :
    0 ≤ calculate_job_match_score cv job ∧ calculate_job_match_score cv job ≤ 100 := by
  simp only [calculate_job_match_score]
  split_ifs with h
  · norm_num
  · refine ⟨le_min (by norm_num) (by positivity), min_le_left _ _⟩

/-- C9: fallback skill extraction returns a subsequence of the fixed
vocabulary (hence vocabulary members only, in vocabulary order, without
duplicates), and a vocabulary entry is returned exactly when it occurs
case-insensitively as a substring of the text. -/
theorem C9_skills_vocabulary (text : String) :
    (extract_skills_basic text).Sublist skills_keywords ∧
    (extract_skills_basic text).Nodup ∧
    ∀ s, s ∈ extract_skills_basic text ↔
      s ∈ skills_keywords ∧ containsSub (lowerS text) (lowerS s) = true := by
  refine ⟨List.filter_sublist _, ?_, ?_⟩
  · exact List.Nodup.sublist (List.filter_sublist _) (by decide)
  · intro s
    simp [extract_skills_basic, List.mem_filter]

/-- C5: whenever the generative service call raises or its cleaned response
fails to parse, profile analysis returns the deterministic fallback profile,
whose summary is the first 200 characters of the text followed by an ellipsis
when the text is longer than 200 characters and the full text otherwise. -/
theorem C5_analysis_fallback (text : String) (llm : LLMOutcome)
    (parseJson : String → Option AnalysisData)
    (h : llm = .failure ∨ ∃ r, llm = .response r ∧ parseJson (strip_code_fences r) = none) :
    analyze_cv_with_ai llm parseJson text = fallback_analysis text ∧
    (analyze_cv_with_ai llm parseJson text).summary =
      (if 200 < text.length then text.take 200 ++ "..." else text) := by
  have heq : analyze_cv_with_ai llm parseJson text = fallback_analysis text := by
    rcases h with h | ⟨r, hr, hp⟩
    · subst h; rfl
    · subst hr
      simp [analyze_cv_with_ai, hp]
  exact ⟨heq, by rw [heq]; rfl⟩

/-- C5 witness: a failing service call on a concrete short text yields the
fallback profile with the untruncated summary. -/
theorem C5_analysis_fallback_witness :
    analyze_cv_with_ai .failure (fun _ => none) "short resume text" =
      fallback_analysis "short resume text" ∧
    (analyze_cv_with_ai .failure (fun _ => none) "short resume text").summary =
      (if 200 < ("short resume text" : String).length
       then ("short resume text" : String).take 200 ++ "..." else "short resume text") :=
  C5_analysis_fallback "short resume text" .failure (fun _ => none) (Or.inl rfl)

/-- A text on which the first experience pattern has four findall matches and
the second has three, so the two per-pattern caps of five do not bound the
combined list by five. -/
def repeatedRoleText : String :=
  "1111 2222 Aa engineer 1111 2222 Aa engineer 1111 2222 Aa engineer 1111 2222 Aa engineer "

set_option maxRecDepth 10000 in
/-- C6 counterexample: on `repeatedRoleText` some pattern matches, yet the
fallback experience extraction returns seven entries, more than five. -/
theorem C6_experience_counterexample :
    (findall experience_pattern_one repeatedRoleText.data).length = 4 ∧
    (findall experience_pattern_two repeatedRoleText.data).length = 3 ∧
    (extract_experience_basic repeatedRoleText).length = 7 := by
  refine ⟨by decide, by decide, by decide⟩

/-- C6 (amended): fallback experience extraction returns exactly one fixed
placeholder entry when neither pattern matches, and otherwise at most five
entries per pattern, hence at most ten entries in total. -/
theorem C6_experience_cap (text : String) :
    ((findall experience_pattern_one text.data = [] ∧
      findall experience_pattern_two text.data = []) →
      extract_experience_basic text = ["Software Developer 2020-2023"]) ∧
    ((findall experience_pattern_one text.data).take 5).length ≤ 5 ∧
    ((findall experience_pattern_two text.data).take 5).length ≤ 5 ∧
    (extract_experience_basic text).length ≤ 10 := by
  refine ⟨?_, ?_, ?_, ?_⟩
  · rintro ⟨h1, h2⟩
    simp [extract_experience_basic, h1, h2]
  · rw [List.length_take]; exact min_le_left _ _
  · rw [List.length_take]; exact min_le_left _ _
  · simp only [extract_experience_basic]
    split_ifs with h
    · simp
    · rw [List.length_append, List.length_map, List.length_map,
        List.length_take, List.length_take]
      have h1 := min_le_left 5 (findall experience_pattern_one text.data).length
      have h2 := min_le_left 5 (findall experience_pattern_two text.data).length
      omega

/-- C6 witness: on a text without year-range or role matches the extraction
returns exactly the placeholder entry. -/
theorem C6_experience_cap_witness :
    extract_experience_basic "hello" = ["Software Developer 2020-2023"] :=
  (C6_experience_cap "hello").1 ⟨by decide, by decide⟩

/-! ## Lemmas about the auto-apply loop -/

/-- The loop invokes `apply_to_job` exactly once per selected posting, in
selection order, whether or not the invocation succeeds. -/
theorem auto_apply_loop_attempts (env : ApplyEnv) (now : Nat) :
    ∀ (jobs : List JobListing) (db : DB) (k : Nat),
      ((auto_apply_loop env now jobs db k).2.2).map Prod.fst = jobs.map JobListing.id := by
  intro jobs
  induction jobs with
  | nil => intro db k; rfl
  | cons job rest ih =>
    intro db k
    simp only [auto_apply_loop]
    rcases happ : apply_to_job env db job.id (env.freshId k) now with ⟨out, db1⟩
    cases out with
    | ok app => simp [ih]
    | httpError s d => simp [ih]

/-- The summaries returned by the loop are exactly those of the successful
invocations, in order; failed invocations are omitted. -/
theorem auto_apply_loop_successes (env : ApplyEnv) (now : Nat) :
    ∀ (jobs : List JobListing) (db : DB) (k : Nat),
      ((auto_apply_loop env now jobs db k).1).map AppSummary.job_id =
        (((auto_apply_loop env now jobs db k).2.2).filter Prod.snd).map Prod.fst := by
  intro jobs
  induction jobs with
  | nil => intro db k; rfl
  | cons job rest ih =>
    intro db k
    simp only [auto_apply_loop]
    rcases happ : apply_to_job env db job.id (env.freshId k) now with ⟨out, db1⟩
    cases out with
    | ok app => simp [ih]
    | httpError s d => simp [ih]

/-- The attempt log of the whole batch lists exactly the ids of the selected
postings, in selection order. -/
theorem auto_apply_attempts_eq (env : ApplyEnv) (db : DB) (min_match_score : ℚ)
    (max_applications : Nat) (now : Nat) :
    ((auto_apply_jobs env db min_match_score max_applications now).2.2).map Prod.fst =
      (selectAutoApplyJobs db.jobs min_match_score max_applications).map JobListing.id := by
  simp only [auto_apply_jobs]
  split_ifs with h
  · rw [List.isEmpty_iff.mp h]
    rfl
  · exact auto_apply_loop_attempts env now _ db 0

/-- `scoreDesc` is transitive. -/
theorem scoreDesc_trans (a b c : JobListing)
    (h1 : scoreDesc a b = true) (h2 : scoreDesc b c = true) : scoreDesc a c = true := by
  simp only [scoreDesc, decide_eq_true_eq] at h1 h2 ⊢
  exact le_trans h2 h1

/-- `scoreDesc` is total. -/
theorem scoreDesc_total (a b : JobListing) : (scoreDesc a b || scoreDesc b a) = true := by
  simp only [scoreDesc, Bool.or_eq_true, decide_eq_true_eq]
  exact le_total b.match_score a.match_score

/-- Every selected posting satisfies the selection filter, and the selection
is sorted by descending match score. -/
theorem selectAutoApplyJobs_spec (jobs : List JobListing) (min_match_score : ℚ)
    (max_applications : Nat) :
    (selectAutoApplyJobs jobs min_match_score max_applications).length ≤ max_applications ∧
    (∀ j ∈ selectAutoApplyJobs jobs min_match_score max_applications,
      j.applied = false ∧ min_match_score ≤ j.match_score) ∧
    (selectAutoApplyJobs jobs min_match_score max_applications).Pairwise
      (fun a b => b.match_score ≤ a.match_score) := by
  refine ⟨?_, ?_, ?_⟩
  · simp only [selectAutoApplyJobs]
    rw [List.length_take]
    exact min_le_left _ _
  · intro j hj
    simp only [selectAutoApplyJobs] at hj
    have h1 : j ∈ (jobs.filter
        (fun j => !j.applied && decide (min_match_score ≤ j.match_score))).mergeSort
          scoreDesc :=
      List.Sublist.mem hj (List.take_sublist _ _)
    have h2 := List.mem_mergeSort.mp h1
    simp only [List.mem_filter, Bool.and_eq_true, Bool.not_eq_true',
      decide_eq_true_eq] at h2
    exact h2.2
  · have hP := @List.sorted_mergeSort JobListing scoreDesc scoreDesc_trans scoreDesc_total
      (jobs.filter (fun j => !j.applied && decide (min_match_score ≤ j.match_score)))
    have hP2 : ((jobs.filter
        (fun j => !j.applied && decide (min_match_score ≤ j.match_score))).mergeSort
          scoreDesc).Pairwise (fun a b => b.match_score ≤ a.match_score) :=
      hP.imp (fun h => by simpa [scoreDesc] using h)
    exact List.Pairwise.sublist (List.take_sublist _ _) hP2

/-- C2: the batch invokes the single-job apply operation at most
`max_applications` times, each posting it is invoked on was unapplied with a
match score at least `min_match_score` at selection time, and the postings are
attempted in descending match-score order. -/
theorem C2_batch_selection (env : ApplyEnv) (db : DB) (min_match_score : ℚ)
    (max_applications : Nat) (now : Nat) :
    ((auto_apply_jobs env db min_match_score max_applications now).2.2).map Prod.fst =
      (selectAutoApplyJobs db.jobs min_match_score max_applications).map JobListing.id ∧
    ((auto_apply_jobs env db min_match_score max_applications now).2.2).length ≤
      max_applications ∧
    (∀ j ∈ selectAutoApplyJobs db.jobs min_match_score max_applications,
      j.applied = false ∧ min_match_score ≤ j.match_score) ∧
    (selectAutoApplyJobs db.jobs min_match_score max_applications).Pairwise
      (fun a b => b.match_score ≤ a.match_score) := by
  obtain ⟨hlen, hmem, hsort⟩ :=
    selectAutoApplyJobs_spec db.jobs min_match_score max_applications
  have hatt := auto_apply_attempts_eq env db min_match_score max_applications now
  refine ⟨hatt, ?_, hmem, hsort⟩
  have hcount : ((auto_apply_jobs env db min_match_score max_applications now).2.2).length =
      (selectAutoApplyJobs db.jobs min_match_score max_applications).length := by
    have := congrArg List.length hatt
    simpa [List.length_map] using this
  rw [hcount]
  exact hlen

/-- C3: a failing apply invocation never aborts the batch: every selected
posting is attempted regardless of earlier failures, and the batch result
reports exactly the successful applications, the failed postings omitted. -/
theorem C3_failure_isolation (env : ApplyEnv) (db : DB) (min_match_score : ℚ)
    (max_applications : Nat) (now : Nat) :
    ((auto_apply_jobs env db min_match_score max_applications now).2.2).map Prod.fst =
      (selectAutoApplyJobs db.jobs min_match_score max_applications).map JobListing.id ∧
    ((auto_apply_jobs env db min_match_score max_applications now).1.applications).map
        AppSummary.job_id =
      (((auto_apply_jobs env db min_match_score max_applications now).2.2).filter
        Prod.snd).map Prod.fst := by
  refine ⟨auto_apply_attempts_eq env db min_match_score max_applications now, ?_⟩
  simp only [auto_apply_jobs]
  split_ifs with h
  · rfl
  · exact auto_apply_loop_successes env now _ db 0

/-! ## Single-job apply: the missing-posting path and re-application -/

/-- An environment in which every external call succeeds and the cover-letter
service call raises (exercising the deterministic fallback template). -/
def nominalEnv : ApplyEnv :=
  { llmCover := fun _ => none, insertFails := fun _ => none,
    updateFails := fun _ => none, freshId := fun n => "app-" ++ toString n }

/-- A state with one stored profile and no posting with id job-1. -/
def dbMissingJob : DB := { cvs := [exampleCV], jobs := [], applications := [] }

/-- C4: on a missing posting the `try` body of `apply_to_job` raises the 404
NotFound exception without touching the state, but the blanket exception
handler of the endpoint re-raises it as a 500 with the NotFound message
embedded in the detail, so the caller observes a 500, not a 404. -/
theorem C4_missing_job_surfaces_500 :
    apply_to_job_inner nominalEnv dbMissingJob "job-1" "app-1" 0 =
      (.error (.httpExc 404 "Job or CV not found"), dbMissingJob) ∧
    apply_to_job nominalEnv dbMissingJob "job-1" "app-1" 0 =
      (.httpError 500 "Error applying to job: 404: Job or CV not found", dbMissingJob) := by
  refine ⟨rfl, rfl⟩

/-- `update_one` on the first matching document leaves the id of that document
unchanged, so a `find?` by id after the update returns the document with the
`applied` flag set. -/
theorem find?_setAppliedFirst (l : List JobListing) (job_id : String) (j : JobListing)
    (h : l.find? (fun x => x.id == job_id) = some j) :
    (setAppliedFirst l job_id).find? (fun x => x.id == job_id) =
      some { j with applied := true } := by
  induction l with
  | nil => simp at h
  | cons a t ih =>
    by_cases ha : (a.id == job_id) = true
    · rw [@List.find?_cons_of_pos _ (fun x => x.id == job_id) a t ha] at h
      obtain rfl : a = j := by injection h
      have hstep : setAppliedFirst (a :: t) job_id = { a with applied := true } :: t := by
        simp [setAppliedFirst, ha]
      rw [hstep]
      exact @List.find?_cons_of_pos _ (fun x => x.id == job_id) { a with applied := true } t ha
    · rw [@List.find?_cons_of_neg _ (fun x => x.id == job_id) a t ha] at h
      have hstep : setAppliedFirst (a :: t) job_id = a :: setAppliedFirst t job_id := by
        simp [setAppliedFirst, ha]
      rw [hstep]
      rw [@List.find?_cons_of_neg _ (fun x => x.id == job_id) a (setAppliedFirst t job_id) ha]
      exact ih h

/-- C10: invoking apply on a posting whose applied flag is already true still
succeeds: the operation never inspects the flag, generates a cover letter from
the current profile, appends an additional Application record for the same
posting, and sets the applied flag to true again. -/
theorem C10_reapply_succeeds (env : ApplyEnv) (db : DB) (job_id app_id : String)
    (now : Nat) (job : JobListing) (cv : CVData)
    (hfind : db.jobs.find? (fun j => j.id == job_id) = some job)
    (_happlied : job.applied = true)
    (hcv : findLatestCV db.cvs = some cv)
    (hins : env.insertFails job_id = none)
    (hupd : env.updateFails job_id = none) :
    ∃ app : JobApplication,
      apply_to_job env db job_id app_id now =
        (.ok app,
         { db with applications := db.applications ++ [app],
                   jobs := setAppliedFirst db.jobs job_id }) ∧
      app.job_id = job_id ∧
      app.cover_letter = generate_cover_letter (env.llmCover job_id) cv job ∧
      (setAppliedFirst db.jobs job_id).find? (fun j => j.id == job_id) =
        some { job with applied := true } := by
  refine ⟨{ id := app_id, job_id := job_id, cv_id := cv.id,
            cover_letter := generate_cover_letter (env.llmCover job_id) cv job,
            application_date := now }, ?_, rfl, rfl,
          find?_setAppliedFirst db.jobs job_id job hfind⟩
  simp [apply_to_job, apply_to_job_inner, hfind, hcv, hins, hupd]

/-- A posting that has already been applied to. -/
def appliedJob : JobListing :=
  { id := "job-1", title := "Backend Developer", company := "Globex",
    location := "Remote", description := "Python services", requirements := "Python",
    url := "https://example.com/job-1", posted_date := "2 days ago",
    match_score := 80, applied := true, created_at := 2 }

/-- A state holding the applied posting and an existing application for it. -/
def dbApplied : DB :=
  { cvs := [exampleCV], jobs := [appliedJob],
    applications := [{ id := "app-0", job_id := "job-1", cv_id := "cv-1",
                       cover_letter := "earlier letter", application_date := 3 }] }

/-- C10 witness: re-applying to the concrete already-applied posting succeeds
and appends a second application record. -/
theorem C10_reapply_succeeds_witness :
    ∃ app : JobApplication,
      apply_to_job nominalEnv dbApplied "job-1" "app-9" 9 =
        (.ok app,
         { dbApplied with applications := dbApplied.applications ++ [app],
                          jobs := setAppliedFirst dbApplied.jobs "job-1" }) ∧
      app.job_id = "job-1" ∧
      app.cover_letter = generate_cover_letter (nominalEnv.llmCover "job-1") exampleCV appliedJob ∧
      (setAppliedFirst dbApplied.jobs "job-1").find? (fun j => j.id == "job-1") =
        some { appliedJob with applied := true } :=
  C10_reapply_succeeds nominalEnv dbApplied "job-1" "app-9" 9 appliedJob exampleCV
    rfl rfl rfl rfl rfl

end JobHunter
